import Mathlib

/-!
Verification of the medimate symptom checker (`src/app.py`).

The core is the scoring routine `calculate_probability`, operating over two
compiled-in tables: `BODY_PART_SYMPTOMS` (body region → symptom list) and
`DISEASE_PROFILES` (condition → symptom → weight).  Python dictionaries are
embedded as association lists (key order is the source's insertion order),
symptom and condition names as `String`, and the floating-point weight
literals as the exact rationals they denote in the source text.  The
selected-symptom set (a Python `set`) is embedded as a `List String`;
hypotheses add `Nodup` where a claim depends on set-ness.
-/

namespace Medimate

/-- Taxonomy table `BODY_PART_SYMPTOMS` of `src/app.py` (lines 6–22). -/
def BODY_PART_SYMPTOMS : List (String × List String) := [
  ("Head/Neck",
    ["Severe headache", "Dizziness", "Blurred vision", "Facial numbness", "Sore throat"]),
  ("Chest/Back",
    ["Shortness of breath", "Chest pain", "Persistent cough", "Heart palpitations", "Upper back pain"]),
  ("Abdomen/Pelvis",
    ["Sharp stomach pain", "Nausea/Vomiting", "Diarrhea", "Constipation", "Bloating", "Pelvic pain"]),
  ("Joints/Limbs",
    ["Joint swelling", "Muscle weakness", "Numbness in limbs", "Severe cramping", "Foot tingling"]),
  ("Systemic",
    ["Fever", "Fatigue", "Unexplained weight loss", "Night sweats"])]

/-- Profile table `DISEASE_PROFILES` of `src/app.py` (lines 24–30). -/
def DISEASE_PROFILES : List (String × List (String × ℚ)) := [
  ("Migraine",
    [("Severe headache", 0.95), ("Blurred vision", 0.6), ("Dizziness", 0.4)]),
  ("Pneumonia",
    [("Persistent cough", 0.9), ("Shortness of breath", 0.8), ("Fever", 0.7)]),
  ("Irritable Bowel Syndrome (IBS)",
    [("Sharp stomach pain", 0.7), ("Bloating", 0.9), ("Constipation", 0.5)]),
  ("Anxiety Disorder",
    [("Heart palpitations", 0.8), ("Shortness of breath", 0.5), ("Dizziness", 0.5), ("Fatigue", 0.6)]),
  ("Rheumatoid Arthritis",
    [("Joint swelling", 0.9), ("Joint stiffness", 0.8), ("Fatigue", 0.5)])]

/-- The match-score loop of `calculate_probability` (lines 44–46):
for each selected symptom present in the condition's weight map, add its
weight to the accumulator. -/
def match_score (selected_symptoms : List String) (symptom_weights : List (String × ℚ)) : ℚ :=
  selected_symptoms.foldl (fun acc symptom =>
    match symptom_weights.lookup symptom with
    | some w => acc + w
    | none => acc) 0

/-- The maximum-possible-score loop of `calculate_probability` (lines 49–50):
sum every weight of the condition's profile. -/
def max_possible_score (symptom_weights : List (String × ℚ)) : ℚ :=
  symptom_weights.foldl (fun acc sw => acc + sw.2) 0

/-- The per-condition body of `calculate_probability` (lines 52–55): when the
maximum possible score is positive the condition gets probability
`min ((match / max) * 100) 100`; otherwise it is skipped (`none`). -/
def scoreCondition (selected_symptoms : List String) (symptom_weights : List (String × ℚ)) :
    Option ℚ :=
  if max_possible_score symptom_weights > 0 then
    some (min ((match_score selected_symptoms symptom_weights /
      max_possible_score symptom_weights) * 100) 100)
  else
    none

/-- The `results` dictionary built by the main loop of `calculate_probability`
(lines 38–55), as an association list in profile order. -/
def condScores (profiles : List (String × List (String × ℚ)))
    (selected_symptoms : List String) : List (String × ℚ) :=
  profiles.filterMap (fun dw => (scoreCondition selected_symptoms dw.2).map (fun p => (dw.1, p)))

/-- Descending order on scored conditions, used for
`sort_values(by='Probability', ascending=False)` (line 59). -/
def probGE (a b : String × ℚ) : Prop := b.2 ≤ a.2

instance : DecidableRel probGE := fun a b => inferInstanceAs (Decidable (b.2 ≤ a.2))

instance : IsTotal (String × ℚ) probGE := ⟨fun a b => le_total b.2 a.2⟩

instance : IsTrans (String × ℚ) probGE := ⟨fun _ _ _ h1 h2 => le_trans h2 h1⟩

/-- The descending sort of line 59.  `pandas.sort_values` leaves tie order
unspecified; a deterministic stable insertion sort stands in for it. -/
def sortDesc (l : List (String × ℚ)) : List (String × ℚ) :=
  l.insertionSort probGE

/-- `calculate_probability` (lines 33–63) with the profile table as an explicit
parameter (the Python reads the global `DISEASE_PROFILES`): short-circuit on an
empty selection, score every condition, sort descending, keep probabilities
strictly above 5, truncate to the first 5 rows. -/
def calculate_probability_with (profiles : List (String × List (String × ℚ)))
    (selected_symptoms : List String) : List (String × ℚ) :=
  if selected_symptoms.isEmpty then []
  else
    (((sortDesc (condScores profiles selected_symptoms)).filter
      (fun r => decide (r.2 > 5))).take 5)

/-- `calculate_probability` exactly as in the source: over the compiled-in
`DISEASE_PROFILES`. -/
def calculate_probability (selected_symptoms : List String) : List (String × ℚ) :=
  calculate_probability_with DISEASE_PROFILES selected_symptoms

/-- The taxonomy accessor of line 110:
`BODY_PART_SYMPTOMS.get(region, [])` — dictionary lookup with default `[]`. -/
def symptoms_for_part (region : String) : List String :=
  (BODY_PART_SYMPTOMS.lookup region).getD []

/-- Modelled from the spec: the §4.3 accessor `symptomsFor(region)`, which
"fails with UnknownRegion if the region is not in the catalog"; failure is
`none`.  (The source has no such failing accessor; line 110 defaults to `[]`.) -/
def symptomsFor_spec (region : String) : Option (List String) :=
  BODY_PART_SYMPTOMS.lookup region

/-- Every symptom named by some condition profile (with multiplicity). -/
def profile_symptoms : List String :=
  (DISEASE_PROFILES.map (fun cw => cw.2.map Prod.fst)).flatten

/-- In how many body-region symptom lists a symptom appears. -/
def region_count (s : String) : Nat :=
  (BODY_PART_SYMPTOMS.filter (fun rw => rw.2.contains s)).length

set_option maxRecDepth 10000

/-! ### Basic lemmas about the scoring arithmetic -/

/-- The weight a condition's profile assigns to a symptom (`0` when absent). -/
def wOf (symptom_weights : List (String × ℚ)) (s : String) : ℚ :=
  (symptom_weights.lookup s).getD 0

theorem lookup_mem {w : List (String × ℚ)} {s : String} {v : ℚ}
    (h : w.lookup s = some v) : (s, v) ∈ w := by
  induction w with
  | nil => simp [List.lookup] at h
  | cons kv w ih =>
    rw [List.lookup] at h
    cases hbeq : s == kv.1 with
    | false =>
      rw [hbeq] at h
      exact List.mem_cons_of_mem _ (ih h)
    | true =>
      rw [hbeq] at h
      have hs : s = kv.1 := eq_of_beq hbeq
      have hv : kv.2 = v := by simpa using h
      subst hs
      rw [← hv]
      exact List.mem_cons_self _ _

theorem wOf_cons (k : String) (v : ℚ) (w : List (String × ℚ)) (s : String) :
    wOf ((k, v) :: w) s = if s = k then v else wOf w s := by
  by_cases h : s = k
  · simp [wOf, List.lookup, h]
  · have hb : (s == k) = false := beq_eq_false_iff_ne.mpr h
    simp [wOf, List.lookup, hb, h]

theorem wOf_nonneg {w : List (String × ℚ)} (hw : ∀ sv ∈ w, 0 ≤ sv.2) (s : String) :
    0 ≤ wOf w s := by
  unfold wOf
  cases h : w.lookup s with
  | none => simp
  | some v => simpa using hw (s, v) (lookup_mem h)

theorem match_score_eq_sum (selected : List String) (w : List (String × ℚ)) :
    match_score selected w = (selected.map (wOf w)).sum := by
  suffices h : ∀ a : ℚ, selected.foldl (fun acc symptom =>
      match w.lookup symptom with
      | some wt => acc + wt
      | none => acc) a = a + (selected.map (wOf w)).sum by
    simpa [match_score] using h 0
  induction selected with
  | nil => simp
  | cons s rest ih =>
    intro a
    have hstep : (match w.lookup s with
        | some wt => a + wt
        | none => a) = a + wOf w s := by
      cases h : w.lookup s <;> simp [wOf, h]
    simp only [List.foldl_cons, List.map_cons, List.sum_cons, hstep, ih]
    ring

theorem max_possible_score_eq_sum (w : List (String × ℚ)) :
    max_possible_score w = (w.map Prod.snd).sum := by
  suffices h : ∀ a : ℚ, w.foldl (fun acc sw => acc + sw.2) a = a + (w.map Prod.snd).sum by
    simpa [max_possible_score] using h 0
  induction w with
  | nil => simp
  | cons sv rest ih =>
    intro a
    simp only [List.foldl_cons, List.map_cons, List.sum_cons, ih]
    ring

theorem max_possible_score_nonneg {w : List (String × ℚ)} (hw : ∀ sv ∈ w, 0 ≤ sv.2) :
    0 ≤ max_possible_score w := by
  rw [max_possible_score_eq_sum]
  refine List.sum_nonneg ?_
  intro x hx
  obtain ⟨sv, hsv, rfl⟩ := List.mem_map.mp hx
  exact hw sv hsv

/-- With no duplicate selected symptoms and nonnegative weights, the matched
weight never exceeds the profile's total weight. -/
theorem match_score_le_max {selected : List String} {w : List (String × ℚ)}
    (hnd : selected.Nodup) (hw : ∀ sv ∈ w, 0 ≤ sv.2) :
    match_score selected w ≤ max_possible_score w := by
  rw [match_score_eq_sum, max_possible_score_eq_sum]
  induction w generalizing selected with
  | nil =>
    have hz : ∀ s ∈ selected, wOf [] s = 0 := by
      intro s _
      simp [wOf, List.lookup]
    rw [List.map_congr_left hz]
    simp
  | cons kv w ih =>
    obtain ⟨k, v⟩ := kv
    have hv : 0 ≤ v := by simpa using hw (k, v) (List.mem_cons_self _ _)
    have hw' : ∀ sv ∈ w, 0 ≤ sv.2 := fun sv hsv => hw sv (List.mem_cons_of_mem _ hsv)
    by_cases hk : k ∈ selected
    · have hperm : selected.Perm (k :: selected.erase k) := List.perm_cons_erase hk
      have hsum : (selected.map (wOf ((k, v) :: w))).sum
          = ((k :: selected.erase k).map (wOf ((k, v) :: w))).sum :=
        (hperm.map _).sum_eq
      have herase : ∀ s ∈ selected.erase k, wOf ((k, v) :: w) s = wOf w s := by
        intro s hs
        have hne : s ≠ k := ((List.Nodup.mem_erase_iff hnd).mp hs).1
        rw [wOf_cons, if_neg hne]
      have hmapeq : (selected.erase k).map (wOf ((k, v) :: w))
          = (selected.erase k).map (wOf w) := List.map_congr_left herase
      have hih := ih (hnd.erase k) hw'
      calc (selected.map (wOf ((k, v) :: w))).sum
          = wOf ((k, v) :: w) k + ((selected.erase k).map (wOf w)).sum := by
            rw [hsum]; simp [hmapeq]
        _ = v + ((selected.erase k).map (wOf w)).sum := by rw [wOf_cons, if_pos rfl]
        _ ≤ v + (w.map Prod.snd).sum := by linarith
        _ = (((k, v) :: w).map Prod.snd).sum := by simp
    · have hall : ∀ s ∈ selected, wOf ((k, v) :: w) s = wOf w s := by
        intro s hs
        have hne : s ≠ k := fun h => hk (h ▸ hs)
        rw [wOf_cons, if_neg hne]
      have hih := ih hnd hw'
      calc (selected.map (wOf ((k, v) :: w))).sum
          = (selected.map (wOf w)).sum := by rw [List.map_congr_left hall]
        _ ≤ (w.map Prod.snd).sum := hih
        _ ≤ (((k, v) :: w).map Prod.snd).sum := by
            simp only [List.map_cons, List.sum_cons]
            linarith

/-! ### Sorting lemmas -/

theorem sortDesc_perm (l : List (String × ℚ)) : (sortDesc l).Perm l :=
  List.perm_insertionSort probGE l

theorem sortDesc_sorted (l : List (String × ℚ)) : List.Sorted probGE (sortDesc l) :=
  List.sorted_insertionSort probGE l

theorem filter_orderedInsert (p : String × ℚ → Bool) (x : String × ℚ) :
    ∀ l : List (String × ℚ), List.Sorted probGE l →
      (List.orderedInsert probGE x l).filter p =
        if p x then List.orderedInsert probGE x (l.filter p) else l.filter p := by
  intro l
  induction l with
  | nil =>
    intro _
    by_cases hx : p x <;> simp [List.orderedInsert, List.filter_cons, hx]
  | cons y ys ih =>
    intro hsort
    have hys : List.Sorted probGE ys := hsort.of_cons
    have hrec := ih hys
    by_cases hxy : probGE x y
    · rw [List.orderedInsert_of_le probGE _ hxy]
      by_cases hx : p x
      · rw [if_pos hx, List.filter_cons_of_pos hx]
        cases hf : (y :: ys).filter p with
        | nil => simp [List.orderedInsert]
        | cons z zs =>
          have hz : z ∈ (y :: ys).filter p := by
            rw [hf]
            exact List.mem_cons_self _ _
          have hzmem : z ∈ y :: ys := List.mem_of_mem_filter hz
          have hxz : probGE x z := by
            rcases List.mem_cons.mp hzmem with rfl | hz'
            · exact hxy
            · exact IsTrans.trans x y z hxy (List.rel_of_sorted_cons hsort z hz')
          rw [List.orderedInsert_of_le probGE _ hxz]
      · rw [if_neg hx, List.filter_cons_of_neg (by simpa using hx)]
    · have hins : List.orderedInsert probGE x (y :: ys)
          = y :: List.orderedInsert probGE x ys := by
        simp [List.orderedInsert, hxy]
      rw [hins]
      by_cases hy : p y
      · rw [List.filter_cons_of_pos hy, hrec, List.filter_cons_of_pos hy]
        by_cases hx : p x
        · rw [if_pos hx, if_pos hx]
          have : List.orderedInsert probGE x (y :: ys.filter p)
              = y :: List.orderedInsert probGE x (ys.filter p) := by
            simp [List.orderedInsert, hxy]
          rw [this]
        · rw [if_neg hx, if_neg hx]
      · rw [List.filter_cons_of_neg (by simpa using hy), hrec,
          List.filter_cons_of_neg (by simpa using hy)]

theorem filter_sortDesc (p : String × ℚ → Bool) (l : List (String × ℚ)) :
    (sortDesc l).filter p = sortDesc (l.filter p) := by
  unfold sortDesc
  induction l with
  | nil => simp
  | cons x xs ih =>
    have hstep := filter_orderedInsert p x (xs.insertionSort probGE)
      (List.sorted_insertionSort probGE xs)
    by_cases hx : p x
    · rw [List.insertionSort, hstep, if_pos hx, ih, List.filter_cons_of_pos hx,
        List.insertionSort]
    · rw [List.insertionSort, hstep, if_neg hx, ih,
        List.filter_cons_of_neg (by simpa using hx)]

theorem keys_nodup_eq_of_mem {α : Type} {l : List (String × α)}
    (hnd : (l.map Prod.fst).Nodup) {c : String} {w w' : α}
    (h : (c, w) ∈ l) (h' : (c, w') ∈ l) : w = w' := by
  induction l with
  | nil => cases h
  | cons kv l ih =>
    rw [List.map_cons, List.nodup_cons] at hnd
    rcases List.mem_cons.mp h with rfl | htl
    · rcases List.mem_cons.mp h' with heq | htl'
      · exact (congrArg Prod.snd heq).symm
      · exact absurd (List.mem_map_of_mem Prod.fst htl') (by simpa using hnd.1)
    · rcases List.mem_cons.mp h' with heq | htl'
      · cases heq
        exact absurd (List.mem_map_of_mem Prod.fst htl) (by simpa using hnd.1)
      · exact ih hnd.2 htl htl'

/-! ### Membership in the output -/

theorem mem_output {profiles : List (String × List (String × ℚ))}
    {selected : List String} {c : String} {p : ℚ}
    (h : (c, p) ∈ calculate_probability_with profiles selected) :
    (c, p) ∈ condScores profiles selected ∧ 5 < p := by
  unfold calculate_probability_with at h
  by_cases hsel : selected.isEmpty
  · rw [if_pos hsel] at h
    cases h
  · rw [if_neg hsel] at h
    have h1 := List.mem_of_mem_take h
    have h2 := List.mem_filter.mp h1
    exact ⟨(sortDesc_perm _).subset h2.1, of_decide_eq_true h2.2⟩

theorem mem_condScores {profiles : List (String × List (String × ℚ))}
    {selected : List String} {c : String} {p : ℚ}
    (h : (c, p) ∈ condScores profiles selected) :
    ∃ w, (c, w) ∈ profiles ∧ scoreCondition selected w = some p := by
  unfold condScores at h
  obtain ⟨⟨d, w⟩, hdw, heq⟩ := List.mem_filterMap.mp h
  cases hsc : scoreCondition selected w with
  | none =>
    rw [hsc] at heq
    cases heq
  | some q =>
    rw [hsc] at heq
    have h1 : d = c ∧ q = p := by simpa using heq
    exact ⟨w, h1.1 ▸ hdw, h1.2 ▸ hsc⟩

theorem scoreCondition_le_100 {selected : List String} {w : List (String × ℚ)} {p : ℚ}
    (h : scoreCondition selected w = some p) : p ≤ 100 := by
  unfold scoreCondition at h
  by_cases hm : max_possible_score w > 0
  · rw [if_pos hm] at h
    injection h with h
    subst h
    exact min_le_right _ _
  · rw [if_neg hm] at h
    cases h

/-! ### Claim theorems -/

/-- C1: for every non-empty selection, every (condition, confidence) pair that
`calculate_probability` returns has confidence strictly greater than 5 and at
most 100; in particular a condition whose confidence is exactly 5 is excluded. -/
theorem returned_confidence_in_Ioc (selected : List String) (_hne : selected ≠ [])
    (c : String) (p : ℚ) (hmem : (c, p) ∈ calculate_probability selected) :
    5 < p ∧ p ≤ 100 := by
  have h := mem_output hmem
  obtain ⟨w, hw, hsc⟩ := mem_condScores h.1
  exact ⟨h.2, scoreCondition_le_100 hsc⟩

/-- Witness for C1 at the concrete selection `{"Severe headache"}`, whose
returned confidence for "Migraine" is 1900/39 ≈ 48.7. -/
theorem returned_confidence_in_Ioc_witness :
    5 < (1900 / 39 : ℚ) ∧ (1900 / 39 : ℚ) ≤ 100 :=
  returned_confidence_in_Ioc ["Severe headache"] (by simp) "Migraine" (1900 / 39)
    (by with_unfolding_all decide)

/-- C2: for every profile table, scoring the empty selection returns the empty
sequence, short-circuiting before any profile is consulted (the profile
argument is not inspected). -/
theorem empty_selection_returns_empty (profiles : List (String × List (String × ℚ))) :
    calculate_probability_with profiles [] = [] := rfl

/-- C3: the output equals the per-condition confidences filtered to those
strictly above 5, sorted descending, truncated to the top 5 (with the empty
short-circuit); consequently its length is at most 5 and at most the number of
conditions with confidence above 5, and it is pairwise sorted descending. -/
theorem output_postprocessing (profiles : List (String × List (String × ℚ)))
    (selected : List String) :
    calculate_probability_with profiles selected
      = (if selected.isEmpty then [] else
          (sortDesc ((condScores profiles selected).filter
            (fun r => decide (r.2 > 5)))).take 5)
    ∧ (calculate_probability_with profiles selected).length ≤ 5
    ∧ (calculate_probability_with profiles selected).length
        ≤ (condScores profiles selected).countP (fun r => decide (r.2 > 5))
    ∧ (calculate_probability_with profiles selected).Pairwise probGE := by
  refine ⟨?_, ?_, ?_, ?_⟩
  · unfold calculate_probability_with
    by_cases hsel : selected.isEmpty
    · rw [if_pos hsel, if_pos hsel]
    · rw [if_neg hsel, if_neg hsel, filter_sortDesc]
  · unfold calculate_probability_with
    by_cases hsel : selected.isEmpty
    · rw [if_pos hsel]
      simp
    · rw [if_neg hsel, List.length_take]
      exact min_le_left _ _
  · unfold calculate_probability_with
    by_cases hsel : selected.isEmpty
    · rw [if_pos hsel]
      simp
    · rw [if_neg hsel]
      have h1 : (((sortDesc (condScores profiles selected)).filter
          (fun r => decide (r.2 > 5))).take 5).length
          ≤ ((sortDesc (condScores profiles selected)).filter
            (fun r => decide (r.2 > 5))).length := by
        rw [List.length_take]
        exact min_le_right _ _
      have h2 : ((sortDesc (condScores profiles selected)).filter
          (fun r => decide (r.2 > 5))).length
          = (condScores profiles selected).countP (fun r => decide (r.2 > 5)) := by
        rw [← List.countP_eq_length_filter]
        exact (sortDesc_perm _).countP_eq _
      rw [h2] at h1
      exact h1
  · unfold calculate_probability_with
    by_cases hsel : selected.isEmpty
    · rw [if_pos hsel]
      exact List.Pairwise.nil
    · rw [if_neg hsel]
      have hsorted : ((sortDesc (condScores profiles selected)).filter
          (fun r => decide (r.2 > 5))).Pairwise probGE :=
        (sortDesc_sorted _).filter _
      exact hsorted.sublist (List.take_sublist _ _)

/-! ### Facts about the compiled-in profile table -/

theorem profiles_weights_pos :
    ∀ cw ∈ DISEASE_PROFILES, ∀ sv ∈ cw.2, (0 : ℚ) < sv.2 := by
  with_unfolding_all decide

theorem profiles_max_pos :
    ∀ cw ∈ DISEASE_PROFILES, 0 < max_possible_score cw.2 := by
  with_unfolding_all decide

/-- C4: adding to the selection a symptom of condition C's profile that is not
already selected never decreases C's pre-filter confidence. -/
theorem confidence_monotonic (c : String) (w : List (String × ℚ))
    (hc : (c, w) ∈ DISEASE_PROFILES) (selected : List String) (s : String) (v : ℚ)
    (hs : w.lookup s = some v) (_hnot : s ∉ selected) (p q : ℚ)
    (hp : scoreCondition selected w = some p)
    (hq : scoreCondition (s :: selected) w = some q) :
    p ≤ q := by
  have hmax : 0 < max_possible_score w := profiles_max_pos (c, w) hc
  have hvpos : 0 < v := profiles_weights_pos (c, w) hc (s, v) (lookup_mem hs)
  unfold scoreCondition at hp hq
  rw [if_pos hmax] at hp
  rw [if_pos hmax] at hq
  injection hp with hp
  injection hq with hq
  subst hp
  subst hq
  have hms : match_score (s :: selected) w = v + match_score selected w := by
    rw [match_score_eq_sum, match_score_eq_sum, List.map_cons, List.sum_cons]
    have hwv : wOf w s = v := by simp [wOf, hs]
    rw [hwv]
  have hle : match_score selected w ≤ match_score (s :: selected) w := by
    rw [hms]
    linarith
  refine min_le_min ?_ le_rfl
  have hdiv : match_score selected w / max_possible_score w
      ≤ match_score (s :: selected) w / max_possible_score w :=
    (div_le_div_iff_of_pos_right hmax).mpr hle
  linarith

/-- Witness for C4: starting from the empty selection, adding "Dizziness" to
the Migraine profile raises the pre-filter confidence from 0 to 800/39. -/
theorem confidence_monotonic_witness : (0 : ℚ) ≤ 800 / 39 :=
  confidence_monotonic "Migraine"
    [("Severe headache", 0.95), ("Blurred vision", 0.6), ("Dizziness", 0.4)]
    (by with_unfolding_all decide) [] "Dizziness" 0.4
    (by with_unfolding_all decide) (by simp) 0 (800 / 39)
    (by with_unfolding_all decide) (by with_unfolding_all decide)

/-- C5: selecting exactly the three Migraine profile symptoms makes the match
score equal the maximum possible score, and "Migraine" is returned with
confidence exactly 100 (capped at 100, not above). -/
theorem migraine_full_match :
    match_score ["Severe headache", "Blurred vision", "Dizziness"]
        ((DISEASE_PROFILES.lookup "Migraine").getD [])
      = max_possible_score ((DISEASE_PROFILES.lookup "Migraine").getD [])
    ∧ ("Migraine", (100 : ℚ)) ∈
        calculate_probability ["Severe headache", "Blurred vision", "Dizziness"] := by
  with_unfolding_all decide

/-- C6 counterexample: for a region absent from the catalog ("Elbow") the
code's accessor does not fail: where the spec-modelled accessor signals
UnknownRegion (`none`), line 110 returns the empty list. -/
theorem unknown_region_returns_empty :
    symptomsFor_spec "Elbow" = none ∧ symptoms_for_part "Elbow" = [] := by
  decide

/-- C6 amended: for a region in the catalog the accessor returns that region's
ordered symptom list; for a region not in the catalog it returns `[]` without
raising any error. -/
theorem symptoms_for_part_contract (region : String) :
    (∀ ss, symptomsFor_spec region = some ss → symptoms_for_part region = ss)
    ∧ (symptomsFor_spec region = none → symptoms_for_part region = []) := by
  constructor
  · intro ss h
    unfold symptomsFor_spec at h
    unfold symptoms_for_part
    rw [h]
    rfl
  · intro h
    unfold symptomsFor_spec at h
    unfold symptoms_for_part
    rw [h]
    rfl

/-- Witness for C6 amended, at the catalogued region "Systemic" and the
uncatalogued region "Left Elbow". -/
theorem symptoms_for_part_contract_witness :
    symptoms_for_part "Systemic"
      = ["Fever", "Fatigue", "Unexplained weight loss", "Night sweats"]
    ∧ symptoms_for_part "Left Elbow" = [] :=
  ⟨(symptoms_for_part_contract "Systemic").1 _ (by decide),
   (symptoms_for_part_contract "Left Elbow").2 (by decide)⟩

/-- C7: a condition whose profile weights sum to 0 is skipped (guarding the
division) and hence excluded from the output entirely; and every condition of
the compiled-in table has a strictly positive weight sum, so for the shipped
data that branch is unreachable. -/
theorem zero_max_score_excluded :
    (∀ (selected : List String) (w : List (String × ℚ)),
      max_possible_score w = 0 → scoreCondition selected w = none)
    ∧ (∀ (profiles : List (String × List (String × ℚ))) (selected : List String)
        (c : String) (w : List (String × ℚ)),
        (profiles.map Prod.fst).Nodup → (c, w) ∈ profiles →
        max_possible_score w = 0 →
        ∀ q, (c, q) ∉ calculate_probability_with profiles selected)
    ∧ (∀ cw ∈ DISEASE_PROFILES, 0 < max_possible_score cw.2) := by
  have hnone : ∀ (selected : List String) (w : List (String × ℚ)),
      max_possible_score w = 0 → scoreCondition selected w = none := by
    intro selected w h
    unfold scoreCondition
    rw [if_neg (by rw [h]; exact lt_irrefl 0)]
  refine ⟨hnone, ?_, profiles_max_pos⟩
  intro profiles selected c w hnd hmem hzero q hq
  obtain ⟨hcs, _⟩ := mem_output hq
  obtain ⟨w', hw', hsc⟩ := mem_condScores hcs
  have hww : w' = w := keys_nodup_eq_of_mem hnd hw' hmem
  subst hww
  rw [hnone selected w' hzero] at hsc
  cases hsc

/-- Witness for C7 at a profile whose weights sum to 0: the condition does not
appear in the output. -/
theorem zero_max_score_excluded_witness :
    scoreCondition ["Fever"] ([] : List (String × ℚ)) = none
    ∧ ("Nullcond", (0 : ℚ)) ∉ calculate_probability_with [("Nullcond", [])] ["Fever"] :=
  ⟨zero_max_score_excluded.1 ["Fever"] [] rfl,
   zero_max_score_excluded.2.1 [("Nullcond", [])] ["Fever"] "Nullcond" []
     (by decide) (by decide) rfl 0⟩

/-- C8: a selected symptom absent from a profile contributes nothing to that
profile's match score; concretely, the selection `{"Foot tingling"}` (a symptom
no profile references) gives every condition confidence 0 and an empty
output. -/
theorem unknown_symptoms_ignored :
    (∀ (selected : List String) (s : String) (w : List (String × ℚ)),
      w.lookup s = none → match_score (s :: selected) w = match_score selected w)
    ∧ (∀ cw ∈ DISEASE_PROFILES, scoreCondition ["Foot tingling"] cw.2 = some 0)
    ∧ calculate_probability ["Foot tingling"] = [] := by
  refine ⟨?_, by with_unfolding_all decide, by with_unfolding_all decide⟩
  intro selected s w h
  rw [match_score_eq_sum, match_score_eq_sum, List.map_cons, List.sum_cons]
  have hz : wOf w s = 0 := by simp [wOf, h]
  rw [hz, zero_add]

/-- Witness for C8: "Foot tingling" is not in the Migraine profile, so adding
it to the selection leaves Migraine's match score unchanged, and Migraine
scores 0 on the selection `{"Foot tingling"}`. -/
theorem unknown_symptoms_ignored_witness :
    match_score ["Foot tingling", "Severe headache"]
        ((DISEASE_PROFILES.lookup "Migraine").getD [])
      = match_score ["Severe headache"] ((DISEASE_PROFILES.lookup "Migraine").getD [])
    ∧ scoreCondition ["Foot tingling"]
        ("Migraine", [("Severe headache", (0.95 : ℚ)), ("Blurred vision", 0.6),
          ("Dizziness", 0.4)]).2 = some 0 :=
  ⟨unknown_symptoms_ignored.1 ["Severe headache"] "Foot tingling" _ (by decide),
   unknown_symptoms_ignored.2.1
     ("Migraine", [("Severe headache", 0.95), ("Blurred vision", 0.6), ("Dizziness", 0.4)])
     (by with_unfolding_all decide)⟩

/-- C9: for a duplicate-free selection and a profile with nonnegative weights,
the match score never exceeds the maximum possible score, so the pre-cap value
`(matchScore / maxScore) * 100` is at most 100 and the explicit min-cap leaves
it unchanged. -/
theorem cap_never_binds (selected : List String) (w : List (String × ℚ))
    (hnd : selected.Nodup) (hw : ∀ sv ∈ w, 0 ≤ sv.2) :
    match_score selected w ≤ max_possible_score w
    ∧ (0 < max_possible_score w →
        (match_score selected w / max_possible_score w) * 100 ≤ 100
        ∧ scoreCondition selected w
          = some ((match_score selected w / max_possible_score w) * 100)) := by
  have hle := match_score_le_max hnd hw
  refine ⟨hle, fun hpos => ?_⟩
  have hq : match_score selected w / max_possible_score w ≤ 1 := by
    rw [div_le_one hpos]
    exact hle
  have h100 : (match_score selected w / max_possible_score w) * 100 ≤ 100 := by
    linarith
  refine ⟨h100, ?_⟩
  unfold scoreCondition
  rw [if_pos hpos, min_eq_left h100]

/-- Witness for C9 at the selection `{"Fever"}` and the one-symptom profile
`{"Fever": 0.7}`. -/
theorem cap_never_binds_witness :
    match_score ["Fever"] [("Fever", (0.7 : ℚ))]
      ≤ max_possible_score [("Fever", (0.7 : ℚ))]
    ∧ (0 < max_possible_score [("Fever", (0.7 : ℚ))] →
        (match_score ["Fever"] [("Fever", (0.7 : ℚ))] /
          max_possible_score [("Fever", (0.7 : ℚ))]) * 100 ≤ 100
        ∧ scoreCondition ["Fever"] [("Fever", (0.7 : ℚ))]
          = some ((match_score ["Fever"] [("Fever", (0.7 : ℚ))] /
              max_possible_score [("Fever", (0.7 : ℚ))]) * 100)) :=
  cap_never_binds ["Fever"] [("Fever", 0.7)] (by decide) (by with_unfolding_all decide)

/-- C10 counterexample: "Joint stiffness" appears in the "Rheumatoid
Arthritis" profile yet in no body region's symptom list, so not every profile
symptom appears in exactly one region's list. -/
theorem joint_stiffness_unlisted :
    "Joint stiffness" ∈ profile_symptoms ∧ region_count "Joint stiffness" = 0 := by
  decide

/-- C10 amended: every symptom appearing in a condition profile, except
"Joint stiffness" (which appears in no region's list), appears in exactly one
body region's symptom list. -/
theorem profile_symptom_in_one_region (s : String) (hs : s ∈ profile_symptoms)
    (hne : s ≠ "Joint stiffness") : region_count s = 1 := by
  have h : ∀ x ∈ profile_symptoms, x ≠ "Joint stiffness" → region_count x = 1 := by
    decide
  exact h s hs hne

/-- Witness for C10 amended at the profile symptom "Severe headache". -/
theorem profile_symptom_in_one_region_witness : region_count "Severe headache" = 1 :=
  profile_symptom_in_one_region "Severe headache" (by decide) (by decide)

end Medimate
